import Mathlib

/-!
Verification of the `vd-card` video-card initializer (files
`src/unnamed/part_000`, version 1.1.0, and `src/vd-card.js`, version 1.0.0).

The JavaScript source is shallowly embedded below: strings are `List Char`,
DOM elements are records, the browser environment (decoder availability,
native capability queries, script-load outcomes, operations that throw) is an
explicit record of booleans, and each side effect of the script is recorded
as an event in a trace.  The embedding follows `src/unnamed/part_000`
line by line; definitions keep the source's names.
-/

set_option autoImplicit false

namespace VdCard

/-- Strings of the JavaScript program, modelled as lists of characters. -/
abbrev Str := List Char

/-! ## Source classifier (`isHlsSource`, part_000 lines 23-26)

`isHlsSource` tests the regex `/\.m3u8(\?|#|$)/i` and then searches for the
literal MIME-type token `application/vnd.apple.mpegurl`. -/

/-- One position of the regex `/\.m3u8(\?|#|$)/i`: does the string start with
`.m3u8` (case-insensitive) followed by `?`, `#`, or the end of the string? -/
def m3u8At : Str → Bool
  | '.' :: c1 :: c2 :: c3 :: c4 :: rest =>
    (c1.toLower == 'm' && c2 == '3' && c3.toLower == 'u' && c4 == '8') &&
    (match rest with
     | [] => true
     | c :: _ => c == '?' || c == '#')
  | _ => false

/-- The regex test `/\.m3u8(\?|#|$)/i.test(src)`: the pattern may match at any
position of the string. -/
def hlsRegexTest : Str → Bool
  | [] => false
  | c :: rest => m3u8At (c :: rest) || hlsRegexTest rest

/-- The manifest MIME-type token searched for by
`src.indexOf('application/vnd.apple.mpegurl') !== -1`. -/
def mimeToken : Str := ("application/vnd.apple.mpegurl".toList)

/-- Does `hay` start with `needle`? (used to express `String.indexOf`). -/
def startsWithTok : Str → Str → Bool
  | [], _ => true
  | _ :: _, [] => false
  | n :: ns, h :: hs => n == h && startsWithTok ns hs

/-- Containment test `hay.indexOf(needle) !== -1`: `needle` occurs contiguously in `hay`. -/
def containsTok (needle hay : Str) : Bool :=
  startsWithTok needle hay ||
    match hay with
    | [] => false
    | _ :: rest => containsTok needle rest

/-- Classifier `isHlsSource` (part_000 lines 23-26): `!src` is the JavaScript emptiness
guard, then the regex test, then the case-sensitive substring search. -/
def isHlsSource (src : Str) : Bool :=
  if src = [] then false
  else hlsRegexTest src || containsTok mimeToken src

/-! ## MIME detection (`detectMimeTypeFromUrl`, part_000 lines 63-73) -/

/-- The final segment of `s` after the last occurrence of `sep`, or all of `s`
when `sep` does not occur: the value of `s.split(sep).pop()` in JavaScript. -/
def lastSegment (sep : Char) (s : Str) : Str :=
  (s.reverse.takeWhile (fun c => c != sep)).reverse

/-- The `switch (ext)` table of `detectMimeTypeFromUrl` (part_000 lines 66-72). -/
def mimeFromExt (ext : Str) : Str :=
  if ext = ("mp4".toList) then ("video/mp4".toList)
  else if ext = ("webm".toList) then ("video/webm".toList)
  else if ext = ("ogg".toList) then ("video/ogg".toList)
  else if ext = ("mov".toList) then ("video/quicktime".toList)
  else []

/-- Function `detectMimeTypeFromUrl` (part_000 lines 63-73):
`(url.split('?')[0].split('.').pop() || '').toLowerCase()` fed to the switch.
`url.split('?')[0]` is the prefix before the first `?`; note the code does not
strip `#` fragments. -/
def detectMimeTypeFromUrl (url : Str) : Str :=
  if url = [] then []
  else mimeFromExt ((lastSegment '.' (url.takeWhile (fun c => c != '?'))).map Char.toLower)

/-! ## Claim-side URL vocabulary

The claims speak of a URL's "path component" and its "file extension".
These two definitions formalise that vocabulary (they are stated from the
claims' words, for comparison against the source functions above): the path
is everything before the first `?` or `#`, and the extension is the final
`.`-segment of the path. -/

/-- The path component of a URL string: the prefix before any `?` query or
`#` fragment. -/
def urlPath (s : Str) : Str := s.takeWhile (fun c => c != '?' && c != '#')

/-- The file extension of a URL string: the final `.`-segment of its path
component. -/
def pathExtension (s : Str) : Str := lastSegment '.' (urlPath s)

/-! ## Dynamic model of the card initializer (part_000 lines 86-192)

The browser environment is a record of booleans; every observable action of
the script is recorded as an event.  Asynchronous script loading
(`loadScript`, lines 14-21) is modelled by a pending-callback field executed
by `runPending` after the synchronous code has returned. -/

/-- A JavaScript number as used for `startLevel`: an integer or `NaN`. -/
inductive JSNum where
  | int : Int → JSNum
  | nan : JSNum
deriving DecidableEq, Repr

/-- Observable events of the script, in execution order. -/
inductive Ev where
  | evWrapperBuilt
  | evDomInjected
  | evLoadScriptReq (url : Str)
  | evAttachHlsCall (src : Str) (lvl : Option JSNum)
  | evSetStartLevel (n : Int)
  | evSetAutoLevel (b : Bool)
  | evLoadSource (src : Str)
  | evAttachMedia
  | evNativeSrcSet (src : Str)
  | evAttachDirectCall (src : Str)
  | evOverlayRemove
  | evPlay
  | evWarn
  | evError
deriving DecidableEq, Repr

/-- A `<source>` child of the video element: its `src` and optional `type`
attribute. -/
structure SourceEl where
  src : Str
  mime : Option Str
deriving DecidableEq, Repr

/-- The video element: its `src` attribute, `<source>` children, and
`preload` value. -/
structure VideoEl where
  srcAttr : Option Str
  sources : List SourceEl
  preload : Str
deriving DecidableEq, Repr

/-- The browser environment: decoder availability (`window.Hls`), support
queries, the outcome of a CDN script load, and which host operations throw. -/
structure Env where
  hlsDefined : Bool
  hlsSupported : Bool
  canPlayTypePresent : Bool
  canPlayNativeHls : Bool
  scriptLoadOk : Bool
  ctorThrows : Bool
  loadSourceThrows : Bool
  attachMediaThrows : Bool
  canPlayTypeThrows : Bool
  srcAssignThrows : Bool
deriving DecidableEq, Repr

/-- The options object after `Object.assign({}, DEFAULTS, options)`. -/
structure Opts where
  hlsCdn : Str
  lazyLoad : Bool
deriving DecidableEq, Repr

/-- A placeholder element: its data attributes, the text found by the
`querySelector` fallbacks, and its original children (opaque node ids). -/
structure Card where
  isVdCard : Bool
  dataSrc : Option Str
  dataTitle : Option Str
  dataDesc : Option Str
  dataPoster : Option Str
  dataLazy : Option Str
  dataStartlevel : Option Str
  innerTitle : Option Str
  innerDesc : Option Str
  children : List Nat
deriving DecidableEq, Repr

/-- A queued `loadScript` callback: from the eager path (lines 151-160) or
from the overlay click handler (lines 114-127). -/
inductive Pending where
  | eagerCb
  | clickCb
deriving DecidableEq, Repr

/-- State of one placeholder after running (part of) the initializer. -/
structure St where
  created : Bool
  origChildren : List Nat
  title : Str
  desc : Str
  poster : Str
  src : Str
  startLevel : Option JSNum
  lazyOn : Bool
  cdn : Str
  video : VideoEl
  overlayPresent : Bool
  injected : Bool
  trace : List Ev
  pending : Option Pending
deriving DecidableEq, Repr

/-- JavaScript `a || b` on an optional string attribute: empty string and
absent attribute are both falsy. -/
def jsOrStr : Option Str → Str → Str
  | some v, b => if v = [] then b else v
  | none, b => b

/-- The lazy flag (part_000 line 93):
`(lazyAttr === '1' || lazyAttr === 'true') || !!opts.lazyLoad`. -/
def lazyEnabled (attr : Option Str) (optLazy : Bool) : Bool :=
  (attr == some ['1'] || attr == some ("true".toList)) || optLazy

/-- JavaScript whitespace accepted by `parseInt`. -/
def isJsSpace (c : Char) : Bool :=
  c == ' ' || c == '\t' || c == '\n' || c == '\r'

/-- Digits value of a non-empty digit list. -/
def digitsVal (ds : Str) : Nat :=
  ds.foldl (fun n c => n * 10 + (c.toNat - '0'.toNat)) 0

/-- JavaScript `parseInt(s, 10)`: skip whitespace, optional sign, then leading decimal
digits; `NaN` when no digit follows. -/
def jsParseInt (s : Str) : JSNum :=
  let t := s.dropWhile isJsSpace
  let core : Str → Bool → JSNum := fun r neg =>
    let ds := r.takeWhile Char.isDigit
    if ds = [] then JSNum.nan
    else if neg then JSNum.int (-(digitsVal ds : Int)) else JSNum.int (digitsVal ds)
  match t with
  | '-' :: r => core r true
  | '+' :: r => core r false
  | _ => core t false

/-- The guard of part_000 line 32: `startLevel` is defined, non-null and not
`NaN`. -/
def validHint : Option JSNum → Option Int
  | some (JSNum.int n) => some n
  | _ => none

/-- Function `attachDirectFile` (part_000 lines 49-61): detect the MIME type, remove
all existing children, append one `<source>`, and set `videoEl.src` as a
fallback. -/
def attachDirectFile (v : VideoEl) (src : Str) : VideoEl × List Ev :=
  let t := detectMimeTypeFromUrl src
  let sourceEl : SourceEl := ⟨src, if t = [] then none else some t⟩
  ({ v with sources := [sourceEl], srcAttr := some src },
   [Ev.evAttachDirectCall src])

/-- The body of `attachHls` (part_000 lines 30-43) before the surrounding
`try`/`catch`: `.error` carries the video state and events up to the point
where a host operation threw. -/
def attachHlsBody (env : Env) (v : VideoEl) (src : Str) (lvl : Option JSNum) :
    Except (VideoEl × List Ev) (VideoEl × List Ev) :=
  if env.hlsDefined && env.hlsSupported then
    if env.ctorThrows then Except.error (v, [])
    else
      let es0 : List Ev :=
        match validHint lvl with
        | some n => [Ev.evSetStartLevel n, Ev.evSetAutoLevel false]
        | none => []
      if env.loadSourceThrows then Except.error (v, es0 ++ [Ev.evLoadSource src])
      else if env.attachMediaThrows then
        Except.error (v, es0 ++ [Ev.evLoadSource src, Ev.evAttachMedia])
      else Except.ok (v, es0 ++ [Ev.evLoadSource src, Ev.evAttachMedia])
  else if env.canPlayTypePresent then
    if env.canPlayTypeThrows then Except.error (v, [])
    else if env.canPlayNativeHls then
      if env.srcAssignThrows then Except.error (v, [])
      else Except.ok ({ v with srcAttr := some src }, [Ev.evNativeSrcSet src])
    else Except.ok (v, [Ev.evWarn])
  else Except.ok (v, [Ev.evWarn])

/-- Function `attachHls` (part_000 lines 28-47): the body wrapped in `try`/`catch`;
a caught exception is logged (`console.error`, `Ev.evError`) and the function
returns normally.  The first event records the call itself. -/
def attachHls (env : Env) (v : VideoEl) (src : Str) (lvl : Option JSNum) :
    VideoEl × List Ev :=
  match attachHlsBody env v src lvl with
  | Except.ok (v2, es) => (v2, Ev.evAttachHlsCall src lvl :: es)
  | Except.error (v2, es) => (v2, Ev.evAttachHlsCall src lvl :: es ++ [Ev.evError])

/-- The state of a placeholder that `initOne` skipped (line 88: no `data-src`)
or that `initAll` never selected: nothing created, nothing mutated. -/
def skippedSt (card : Card) : St :=
  { created := false, origChildren := card.children, title := [], desc := [],
    poster := [], src := [], startLevel := none, lazyOn := false, cdn := [],
    video := ⟨none, [], []⟩, overlayPresent := false, injected := false,
    trace := [], pending := none }

/-- The `startLevel` parse of part_000 line 95:
`(attr != null && attr !== '') ? parseInt(attr, 10) : null`. -/
def parsedLevel (card : Card) : Option JSNum :=
  match card.dataStartlevel with
  | none => none
  | some a => if a = [] then none else some (jsParseInt a)

/-- Function `initOne` (part_000 lines 86-182): attribute parsing, wrapper and overlay
construction, the eager attachment block, and the final DOM injection. -/
def initOne (env : Env) (opts : Opts) (card : Card) : St :=
  match card.dataSrc with
  | none => skippedSt card
  | some s =>
    if s = [] then skippedSt card
    else
      let lz := lazyEnabled card.dataLazy opts.lazyLoad
      let sl : Option JSNum := parsedLevel card
      let base : St :=
        { created := true, origChildren := card.children,
          title := jsOrStr card.dataTitle (jsOrStr card.innerTitle []),
          desc := jsOrStr card.dataDesc (jsOrStr card.innerDesc []),
          poster := jsOrStr card.dataPoster [], src := s, startLevel := sl,
          lazyOn := lz, cdn := opts.hlsCdn,
          video := ⟨none, [], if lz then ("none".toList) else ("metadata".toList)⟩,
          overlayPresent := true, injected := false,
          trace := [Ev.evWrapperBuilt], pending := none }
      let afterEager : St :=
        if lz then base
        else
          let st1 : St :=
            if isHlsSource s then
              if env.hlsDefined then
                let r := attachHls env base.video s sl
                { base with video := r.1, trace := base.trace ++ r.2 }
              else
                { base with
                  trace := base.trace ++ [Ev.evLoadScriptReq opts.hlsCdn],
                  pending := some Pending.eagerCb }
            else
              let r := attachDirectFile base.video s
              { base with video := r.1, trace := base.trace ++ r.2 }
          if jsOrStr card.dataPoster [] = [] then
            { st1 with
              overlayPresent := false,
              trace := st1.trace ++ [Ev.evOverlayRemove] }
          else st1
      { afterEager with
        injected := true,
        trace := afterEager.trace ++ [Ev.evDomInjected] }

/-- A user click on the poster overlay (`onPlayClick`, part_000 lines
109-139); a no-op when the overlay is no longer in the DOM. -/
def clickOverlay (env : Env) (st : St) : St :=
  if st.overlayPresent then
    if isHlsSource st.src then
      if env.hlsDefined then
        let r := attachHls env st.video st.src st.startLevel
        { st with
          video := r.1, overlayPresent := false,
          trace := st.trace ++ r.2 ++ [Ev.evOverlayRemove, Ev.evPlay] }
      else
        { st with
          trace := st.trace ++ [Ev.evLoadScriptReq st.cdn],
          pending := some Pending.clickCb }
    else
      let r := attachDirectFile st.video st.src
      { st with
        video := r.1, overlayPresent := false,
        trace := st.trace ++ r.2 ++ [Ev.evOverlayRemove, Ev.evPlay] }
  else st

/-- Execution of a queued `loadScript` callback.  On success `window.Hls`
has become defined.  The eager callback (lines 151-160) only attaches; the
click callback (lines 114-127) additionally removes the overlay and calls
`play()` whatever the outcome. -/
def runPending (env : Env) (st : St) : St :=
  match st.pending with
  | none => st
  | some Pending.eagerCb =>
    if env.scriptLoadOk then
      let r := attachHls { env with hlsDefined := true } st.video st.src st.startLevel
      { st with video := r.1, trace := st.trace ++ r.2, pending := none }
    else
      if env.canPlayTypePresent && env.canPlayNativeHls then
        { st with
          video := { st.video with srcAttr := some st.src },
          trace := st.trace ++ [Ev.evNativeSrcSet st.src], pending := none }
      else { st with pending := none }
  | some Pending.clickCb =>
    let st1 : St :=
      if env.scriptLoadOk then
        let r := attachHls { env with hlsDefined := true } st.video st.src st.startLevel
        { st with video := r.1, trace := st.trace ++ r.2, pending := none }
      else
        if env.canPlayTypePresent && env.canPlayNativeHls then
          { st with
            video := { st.video with srcAttr := some st.src },
            trace := st.trace ++ [Ev.evWarn, Ev.evNativeSrcSet st.src],
            pending := none }
        else { st with trace := st.trace ++ [Ev.evWarn], pending := none }
    { st1 with
      overlayPresent := false,
      trace := st1.trace ++ [Ev.evOverlayRemove, Ev.evPlay] }

/-- The standard scenario: initialize a placeholder, let any queued script
load complete, click the overlay once, and let any queued script load
complete again. -/
def fullRun (env : Env) (opts : Opts) (card : Card) : St :=
  runPending env (clickOverlay env (runPending env (initOne env opts card)))

/-- One entry of `initAll` (part_000 lines 184-192): the selector
`.vd-card[data-src]` requires the class and the presence of the attribute. -/
def initAllEntry (env : Env) (opts : Opts) (card : Card) : St :=
  if card.isVdCard = true ∧ card.dataSrc ≠ none then initOne env opts card
  else skippedSt card

/-- Function `initAll` over a document modelled as a list of candidate elements. -/
def initAll (env : Env) (opts : Opts) (cards : List Card) : List St :=
  cards.map (initAllEntry env opts)

/-- The children of the card after the run: the injected `head` and wrapper
when `initOne` reached its final block, the original children otherwise. -/
inductive CardChild where
  | orig : Nat → CardChild
  | headEl : Str → Str → CardChild
  | wrapperEl : VideoEl → Bool → CardChild
deriving DecidableEq, Repr

/-- Final DOM below the card element. -/
def cardChildrenAfter (st : St) : List CardChild :=
  if st.injected then
    [CardChild.headEl st.title st.desc, CardChild.wrapperEl st.video st.overlayPresent]
  else st.origChildren.map CardChild.orig

/-- Events that record entry into one of the two attachers. -/
def isAttachCallEv : Ev → Bool
  | Ev.evAttachHlsCall _ _ => true
  | Ev.evAttachDirectCall _ => true
  | _ => false

/-- Number of source-attachment attempts recorded in a trace. -/
def attachCalls (t : List Ev) : Nat := t.countP isAttachCallEv

/-! ### Concrete fixtures used by witnesses and counterexamples -/

/-- Concrete options: some CDN URL, global lazy loading off. -/
def optsT : Opts := ⟨"cdn".toList, false⟩

/-- A `.vd-card` element with no data attributes and one original child. -/
def noneCard : Card := ⟨true, none, none, none, none, none, none, none, none, [7]⟩

/-- Environment: no decoder, no native support, script load fails, nothing
throws. -/
def envQuiet : Env := ⟨false, false, false, false, false, false, false, false, false, false⟩

/-- Environment: decoder absent but its CDN load succeeds and the loaded
decoder reports support. -/
def envAsyncOk : Env := ⟨false, true, false, false, true, false, false, false, false, false⟩

/-- Environment: decoder already present and supported. -/
def envHlsReady : Env := ⟨true, true, false, false, true, false, false, false, false, false⟩

/-- Placeholder with a direct-file source and no poster. -/
def cardDirectNoPoster : Card := { noneCard with dataSrc := some ("movie.mp4".toList) }

/-- Placeholder with a direct-file source and a poster image. -/
def cardDirectPoster : Card :=
  { noneCard with dataSrc := some ("v.mp4".toList), dataPoster := some ("p.jpg".toList) }

/-- Lazy placeholder with an adaptive-stream source. -/
def cardLazyHls : Card :=
  { noneCard with dataSrc := some ("a.m3u8".toList), dataLazy := some ['1'] }

/-- Eager placeholder with an adaptive-stream source and no poster. -/
def cardEagerHls : Card := { noneCard with dataSrc := some ("a.m3u8".toList) }

/-! ## C7 and C8: the adaptive-stream attacher -/

/-- The environment configurations in which the body of `attachHls` raises an
exception (stated from the `try` block structure, for C8). -/
def throwFires (env : Env) : Bool :=
  if env.hlsDefined && env.hlsSupported then
    env.ctorThrows || env.loadSourceThrows || env.attachMediaThrows
  else if env.canPlayTypePresent then
    env.canPlayTypeThrows || (env.canPlayNativeHls && env.srcAssignThrows)
  else false

/-- Overlay-removal events. -/
def isRemoveEv : Ev → Bool
  | Ev.evOverlayRemove => true
  | _ => false

/-- Scan of a trace: `false` exactly when an attachment attempt is recorded
after an overlay removal. -/
def noAttachAfterRemoveAux : Bool → List Ev → Bool
  | _, [] => true
  | seen, e :: rest =>
    if seen && isAttachCallEv e then false
    else noAttachAfterRemoveAux (seen || isRemoveEv e) rest

/-- No attachment attempt occurs after an overlay removal in the trace. -/
def noAttachAfterRemove (t : List Ev) : Bool := noAttachAfterRemoveAux false t

/-! ### Helper lemmas on `takeWhile` and `hlsRegexTest` -/

theorem takeWhile_append_of_forall {α : Type} (p : α → Bool) :
    ∀ (a b : List α), (∀ c ∈ a, p c = true) →
      (a ++ b).takeWhile p = a ++ b.takeWhile p := by
  intro a
  induction a with
  | nil => intro b _; simp
  | cons x xs ih =>
    intro b h
    have hx : p x = true := h x (List.mem_cons_self x xs)
    simp only [List.cons_append, List.takeWhile_cons, hx, if_true]
    rw [ih b (fun c hc => h c (List.mem_cons_of_mem x hc))]

theorem hlsRegexTest_append_left (a : Str) :
    ∀ s : Str, hlsRegexTest s = true → hlsRegexTest (a ++ s) = true := by
  induction a with
  | nil => intro s h; simpa using h
  | cons c a ih =>
    intro s h
    show hlsRegexTest (c :: (a ++ s)) = true
    rw [hlsRegexTest]
    rw [Bool.or_eq_true]
    exact Or.inr (ih s h)

theorem m3u8At_of_shape (m u : Char) (suffix : Str)
    (hm : m.toLower = 'm') (hu : u.toLower = 'u')
    (hs : suffix = [] ∨ (∃ r, suffix = '?' :: r) ∨ (∃ r, suffix = '#' :: r)) :
    m3u8At ('.' :: m :: '3' :: u :: '8' :: suffix) = true := by
  rcases hs with h | ⟨r, h⟩ | ⟨r, h⟩ <;> subst h <;>
    simp [m3u8At, hm, hu]

/-- C1 (counterexample): the regex of `isHlsSource` is not anchored to the
URL's path component, so a URL whose path has extension `mp4` and which does
not contain the MIME-type token is still classified adaptive-stream when its
query ends in `.m3u8`. -/
theorem isHlsSource_not_path_anchored :
    isHlsSource ("a.mp4?x=.m3u8".toList) = true ∧
    pathExtension ("a.mp4?x=.m3u8".toList) = ("mp4".toList) ∧
    containsTok mimeToken ("a.mp4?x=.m3u8".toList) = false := by decide

/-- C1 (amended): every URL whose path component ends in `.m3u8`
(case-insensitive), optionally followed by a query or fragment, is classified
adaptive-stream; every string containing the MIME-type token is classified
adaptive-stream; and every string in which `.m3u8` never occurs immediately
followed by `?`, `#` or the end of the string, and which does not contain the
MIME-type token, is classified direct-file. -/
theorem isHlsSource_classification :
    (∀ (q suffix : Str) (m u : Char),
       m.toLower = 'm' → u.toLower = 'u' →
       (suffix = [] ∨ (∃ r, suffix = '?' :: r) ∨ (∃ r, suffix = '#' :: r)) →
       isHlsSource ((q ++ ['.', m, '3', u, '8']) ++ suffix) = true) ∧
    (∀ s : Str, containsTok mimeToken s = true → isHlsSource s = true) ∧
    (∀ s : Str, hlsRegexTest s = false → containsTok mimeToken s = false →
       isHlsSource s = false) := by
  refine ⟨?_, ?_, ?_⟩
  · intro q suffix m u hm hu hs
    have hmatch : m3u8At ('.' :: m :: '3' :: u :: '8' :: suffix) = true :=
      m3u8At_of_shape m u suffix hm hu hs
    have hfirst : hlsRegexTest ('.' :: m :: '3' :: u :: '8' :: suffix) = true := by
      rw [hlsRegexTest, Bool.or_eq_true]
      exact Or.inl hmatch
    have hreg : hlsRegexTest ((q ++ ['.', m, '3', u, '8']) ++ suffix) = true := by
      rw [List.append_assoc]
      exact hlsRegexTest_append_left q _ (by simpa using hfirst)
    have hne : (q ++ ['.', m, '3', u, '8']) ++ suffix ≠ [] := by simp
    rw [isHlsSource, if_neg hne, Bool.or_eq_true]
    exact Or.inl hreg
  · intro s h
    have hne : s ≠ [] := by
      intro he
      subst he
      exact absurd h (by decide)
    rw [isHlsSource, if_neg hne, Bool.or_eq_true]
    exact Or.inr h
  · intro s h1 h2
    rw [isHlsSource]
    split
    · rfl
    · rw [h1, h2]; rfl

/-- Witness for C1 (amended) at `"video.M3U8?x=1"` for the path direction and
at a token-carrying string for the MIME-token direction. -/
theorem isHlsSource_classification_witness :
    isHlsSource (("video".toList ++ ['.', 'M', '3', 'U', '8']) ++ ("?x=1".toList)) = true ∧
    isHlsSource ("x-application/vnd.apple.mpegurl-y".toList) = true :=
  ⟨isHlsSource_classification.1 ("video".toList) ("?x=1".toList) 'M' 'U' (by decide)
     (by decide) (Or.inr (Or.inl ⟨"x=1".toList, rfl⟩)),
   isHlsSource_classification.2.1 ("x-application/vnd.apple.mpegurl-y".toList) (by decide)⟩

/-- C4 (counterexample): `detectMimeTypeFromUrl` strips only the `?` query,
not `#` fragments, so `"a.mp4#t=10"` — whose path extension is `mp4` — yields
the empty string instead of `video/mp4`. -/
theorem detectMime_fragment_counterexample :
    detectMimeTypeFromUrl ("a.mp4#t=10".toList) = [] ∧
    pathExtension ("a.mp4#t=10".toList) = ("mp4".toList) := by decide

/-- C4 (amended): for a URL made of a path `stem.ext` followed by an optional
`?` query (and no fragment), `detectMimeTypeFromUrl` lower-cases the final
`.`-segment and applies the extension table
(mp4, webm, ogg, mov mapped; everything else empty). -/
theorem detectMime_query_stripped (stem ext query : Str)
    (hq : query = [] ∨ ∃ r, query = '?' :: r)
    (hstem : '?' ∉ stem) (hext1 : '?' ∉ ext) (hext2 : '.' ∉ ext) :
    detectMimeTypeFromUrl (stem ++ '.' :: ext ++ query) =
      mimeFromExt (ext.map Char.toLower) := by
  have hassoc : stem ++ '.' :: ext ++ query = (stem ++ '.' :: ext) ++ query := by
    simp
  have hall : ∀ c ∈ stem ++ '.' :: ext, (c != '?') = true := by
    intro c hc
    have hcne : c ≠ '?' := by
      intro h2
      subst h2
      rcases List.mem_append.mp hc with h | h
      · exact hstem h
      · rcases List.mem_cons.mp h with h | h
        · exact absurd h (by decide)
        · exact hext1 h
    simpa using hcne

  have htake : (stem ++ '.' :: ext ++ query).takeWhile (fun c => c != '?') =
      stem ++ '.' :: ext := by
    rw [hassoc, takeWhile_append_of_forall _ _ _ hall]
    rcases hq with h | ⟨r, h⟩ <;> subst h <;> simp
  have hrev : ∀ c ∈ ext.reverse, (c != '.') = true := by
    intro c hc
    have hcne : c ≠ '.' := by
      intro h2
      subst h2
      exact hext2 (List.mem_reverse.mp hc)
    simpa using hcne
  have hlast : lastSegment '.' (stem ++ '.' :: ext) = ext := by
    rw [lastSegment]
    rw [List.reverse_append, List.reverse_cons, List.append_assoc]
    rw [takeWhile_append_of_forall _ _ _ hrev]
    simp
  have hne : stem ++ '.' :: ext ++ query ≠ [] := by simp
  rw [detectMimeTypeFromUrl, if_neg hne, htake, hlast]

/-- Witness for C4 (amended) at `"video.MP4?a=1"`. -/
theorem detectMime_query_stripped_witness :
    detectMimeTypeFromUrl ("video".toList ++ '.' :: ("MP4".toList) ++ ("?a=1".toList)) =
      mimeFromExt ("MP4".toList.map Char.toLower) :=
  detectMime_query_stripped ("video".toList) ("MP4".toList) ("?a=1".toList)
    (Or.inr ⟨"a=1".toList, rfl⟩) (by decide) (by decide) (by decide)

/-! ## C10: the lazy flag -/

/-- C10: lazy mode is on exactly when `data-lazy` is the exact string `"1"`
or `"true"` or the `lazyLoad` option is set; and the flag stored by `initOne`
is this function of the attribute and the option, so no attribute value can
switch lazy off once the option demands it. -/
theorem lazyEnabled_spec :
    (∀ (attr : Option Str) (b : Bool),
       lazyEnabled attr b = true ↔
         (attr = some ['1'] ∨ attr = some ("true".toList) ∨ b = true)) ∧
    (∀ (env : Env) (opts : Opts) (card : Card) (s : Str),
       card.dataSrc = some s → s ≠ [] →
       (initOne env opts card).lazyOn = lazyEnabled card.dataLazy opts.lazyLoad) := by
  constructor
  · intro attr b
    simp [lazyEnabled, Bool.or_eq_true, or_assoc]
  · intro env opts card s h hne
    simp only [initOne, h]
    rw [if_neg hne]
    split_ifs <;> rfl

/-- Witness for C10 at a concrete lazy card. -/
theorem lazyEnabled_spec_witness :
    (lazyEnabled (some ['1']) false = true ↔
       (some ['1'] = some ['1'] ∨ some ['1'] = some ("true".toList) ∨ false = true)) ∧
    (initOne envQuiet optsT cardLazyHls).lazyOn =
      lazyEnabled cardLazyHls.dataLazy optsT.lazyLoad :=
  ⟨lazyEnabled_spec.1 (some ['1']) false,
   lazyEnabled_spec.2 envQuiet optsT cardLazyHls ("a.m3u8".toList) rfl (by decide)⟩

/-! ## C5: placeholders without `data-src` are skipped -/

/-- C5: a placeholder whose `data-src` is absent or empty is left untouched
by `initOne` and by the `initAll` selection: no player state is created, the
card's children are unchanged, and no event is emitted. -/
theorem initOne_skips_without_src (env : Env) (opts : Opts) (card : Card)
    (h : card.dataSrc = none ∨ card.dataSrc = some []) :
    initOne env opts card = skippedSt card ∧
    initAllEntry env opts card = skippedSt card ∧
    cardChildrenAfter (initOne env opts card) = card.children.map CardChild.orig ∧
    (initOne env opts card).created = false ∧
    (initOne env opts card).trace = [] := by
  have h1 : initOne env opts card = skippedSt card := by
    rcases h with h | h <;> simp [initOne, h]
  have h2 : initAllEntry env opts card = skippedSt card := by
    rw [initAllEntry]
    split
    · exact h1
    · rfl
  refine ⟨h1, h2, ?_, ?_, ?_⟩ <;> rw [h1] <;> simp [cardChildrenAfter, skippedSt]

/-- Witness for C5: the attribute-less card is skipped. -/
theorem initOne_skips_without_src_witness :
    initOne envQuiet optsT noneCard = skippedSt noneCard ∧
    initAllEntry envQuiet optsT noneCard = skippedSt noneCard ∧
    cardChildrenAfter (initOne envQuiet optsT noneCard) =
      noneCard.children.map CardChild.orig ∧
    (initOne envQuiet optsT noneCard).created = false ∧
    (initOne envQuiet optsT noneCard).trace = [] :=
  initOne_skips_without_src envQuiet optsT noneCard (Or.inl rfl)

/-! ## C3: eager direct-file placeholder without poster -/

/-- C3: for a direct-file placeholder with lazy mode off and no poster,
initialization removes the overlay before injection, and the video element
carries exactly one `<source>` child whose `src` is the URL and whose `type`
is the detected MIME type (absent when detection yields the empty string),
with the fallback `src` attribute also set. -/
theorem initOne_direct_eager (env : Env) (opts : Opts) (card : Card) (s : Str)
    (hsrc : card.dataSrc = some s) (hne : s ≠ [])
    (hhls : isHlsSource s = false)
    (hlazy : lazyEnabled card.dataLazy opts.lazyLoad = false)
    (hposter : card.dataPoster = none ∨ card.dataPoster = some []) :
    (initOne env opts card).injected = true ∧
    (initOne env opts card).overlayPresent = false ∧
    (initOne env opts card).video.sources =
      [⟨s, if detectMimeTypeFromUrl s = [] then none
           else some (detectMimeTypeFromUrl s)⟩] ∧
    (initOne env opts card).video.srcAttr = some s ∧
    (initOne env opts card).created = true := by
  have hp : jsOrStr card.dataPoster [] = [] := by
    rcases hposter with h | h <;> simp [jsOrStr, h]
  simp only [initOne, hsrc]
  rw [if_neg hne]
  simp [hlazy, hhls, hp, attachDirectFile]

/-- Witness for C3 at `data-src="movie.mp4"`. -/
theorem initOne_direct_eager_witness :
    (initOne envQuiet optsT cardDirectNoPoster).injected = true ∧
    (initOne envQuiet optsT cardDirectNoPoster).overlayPresent = false ∧
    (initOne envQuiet optsT cardDirectNoPoster).video.sources =
      [⟨"movie.mp4".toList,
        if detectMimeTypeFromUrl ("movie.mp4".toList) = [] then none
        else some (detectMimeTypeFromUrl ("movie.mp4".toList))⟩] ∧
    (initOne envQuiet optsT cardDirectNoPoster).video.srcAttr = some ("movie.mp4".toList) ∧
    (initOne envQuiet optsT cardDirectNoPoster).created = true :=
  initOne_direct_eager envQuiet optsT cardDirectNoPoster ("movie.mp4".toList) rfl
    (by decide) (by decide) (by decide) (Or.inl rfl)

/-- C7: with the decoder present, supported and constructible, a valid hint
makes `attachHls` set `startLevel` to the hint's integer value and disable
automatic level switching before `loadSource` (and hence `attachMedia`) is
called; without a valid hint neither property is ever set. -/
theorem attachHls_startLevel (env : Env) (v : VideoEl) (src : Str) (lvl : Option JSNum)
    (h1 : env.hlsDefined = true) (h2 : env.hlsSupported = true)
    (h3 : env.ctorThrows = false) :
    (∀ n : Int, lvl = some (JSNum.int n) →
       (attachHls env v src lvl).2.take 4 =
         [Ev.evAttachHlsCall src lvl, Ev.evSetStartLevel n,
          Ev.evSetAutoLevel false, Ev.evLoadSource src]) ∧
    (validHint lvl = none →
       (∀ n : Int, Ev.evSetStartLevel n ∉ (attachHls env v src lvl).2) ∧
       (∀ b : Bool, Ev.evSetAutoLevel b ∉ (attachHls env v src lvl).2)) := by
  constructor
  · intro n hn
    subst hn
    by_cases hl : env.loadSourceThrows <;> by_cases ha : env.attachMediaThrows <;>
      simp [attachHls, attachHlsBody, h1, h2, h3, hl, ha, validHint]
  · intro hv
    constructor <;> intro x <;>
      by_cases hl : env.loadSourceThrows <;> by_cases ha : env.attachMediaThrows <;>
        simp [attachHls, attachHlsBody, h1, h2, h3, hl, ha, hv]

/-- Witness for C7 in a ready environment with hint `2`. -/
theorem attachHls_startLevel_witness :
    (attachHls envHlsReady ⟨none, [], []⟩ ("a.m3u8".toList) (some (JSNum.int 2))).2.take 4 =
      [Ev.evAttachHlsCall ("a.m3u8".toList) (some (JSNum.int 2)), Ev.evSetStartLevel 2,
       Ev.evSetAutoLevel false, Ev.evLoadSource ("a.m3u8".toList)] :=
  (attachHls_startLevel envHlsReady ⟨none, [], []⟩ ("a.m3u8".toList)
    (some (JSNum.int 2)) rfl rfl rfl).1 2 rfl

/-- C8: `attachHls` is a total function of the environment (no exception
escapes); a logged error event appears exactly when one of the guarded host
operations throws, and when neither the decoder path nor native support
applies the function only warns and leaves the video element untouched. -/
theorem attachHls_catches (env : Env) (v : VideoEl) (src : Str) (lvl : Option JSNum) :
    (Ev.evError ∈ (attachHls env v src lvl).2 ↔ throwFires env = true) ∧
    ((env.hlsDefined && env.hlsSupported) = false →
     (env.canPlayTypePresent && env.canPlayTypeThrows) = false →
     (env.canPlayTypePresent && env.canPlayNativeHls) = false →
     (attachHls env v src lvl).1 = v ∧
     (attachHls env v src lvl).2 = [Ev.evAttachHlsCall src lvl, Ev.evWarn]) := by
  have hv : validHint lvl = none ∨ ∃ n : Int, validHint lvl = some n := by
    rcases lvl with _ | l
    · exact Or.inl rfl
    · rcases l with n | _
      · exact Or.inr ⟨n, rfl⟩
      · exact Or.inl rfl
  constructor
  · unfold attachHls attachHlsBody throwFires
    rcases hv with hv | ⟨n, hv⟩ <;> rw [hv] <;> split_ifs <;> simp_all
  · intro g1 g2 g3
    by_cases h6 : env.canPlayTypePresent
    · have h7 : env.canPlayTypeThrows = false := by simpa [h6] using g2
      have h8 : env.canPlayNativeHls = false := by simpa [h6] using g3
      simp [attachHls, attachHlsBody, g1, h6, h7, h8]
    · simp [attachHls, attachHlsBody, g1, h6]

/-- Witness for C8 in an environment with no decoder and no native support. -/
theorem attachHls_catches_witness :
    (attachHls envQuiet ⟨none, [], []⟩ ("s".toList) none).1 = ⟨none, [], []⟩ ∧
    (attachHls envQuiet ⟨none, [], []⟩ ("s".toList) none).2 =
      [Ev.evAttachHlsCall ("s".toList) none, Ev.evWarn] :=
  (attachHls_catches envQuiet ⟨none, [], []⟩ ("s".toList) none).2
    (by decide) (by decide) (by decide)

/-! ### Counting and trace lemmas for the orchestration claims -/

theorem validHint_cases (lvl : Option JSNum) :
    validHint lvl = none ∨ ∃ n : Int, validHint lvl = some n := by
  rcases lvl with _ | l
  · exact Or.inl rfl
  · rcases l with n | _
    · exact Or.inr ⟨n, rfl⟩
    · exact Or.inl rfl

@[simp] theorem attachCalls_nil : attachCalls [] = 0 := rfl

@[simp] theorem attachCalls_cons (e : Ev) (t : List Ev) :
    attachCalls (e :: t) = attachCalls t + (if isAttachCallEv e then 1 else 0) :=
  List.countP_cons isAttachCallEv e t

@[simp] theorem attachCalls_append (a b : List Ev) :
    attachCalls (a ++ b) = attachCalls a + attachCalls b :=
  List.countP_append isAttachCallEv a b

/-- Every call to `attachHls` records exactly one attachment attempt. -/
@[simp] theorem attachCalls_attachHls (env : Env) (v : VideoEl) (src : Str)
    (lvl : Option JSNum) : attachCalls (attachHls env v src lvl).2 = 1 := by
  rcases validHint_cases lvl with hv | ⟨n, hv⟩ <;>
    unfold attachHls attachHlsBody <;> rw [hv] <;> split_ifs <;>
      simp [attachCalls, isAttachCallEv, List.countP_cons]

/-- Every call to `attachDirectFile` records exactly one attachment attempt. -/
@[simp] theorem attachCalls_attachDirectFile (v : VideoEl) (src : Str) :
    attachCalls (attachDirectFile v src).2 = 1 := by
  simp [attachDirectFile, attachCalls, isAttachCallEv, List.countP_cons]

/-- Function `attachHls` never removes the overlay. -/
theorem overlayRemove_notin_attachHls (env : Env) (v : VideoEl) (src : Str)
    (lvl : Option JSNum) : Ev.evOverlayRemove ∉ (attachHls env v src lvl).2 := by
  rcases validHint_cases lvl with hv | ⟨n, hv⟩ <;>
    unfold attachHls attachHlsBody <;> rw [hv] <;> split_ifs <;> simp

/-- State of a lazily initialized placeholder: wrapper built, nothing
attached, overlay kept, DOM injected, no pending callback. -/
theorem initOne_lazy_state (env : Env) (opts : Opts) (card : Card) (s : Str)
    (hsrc : card.dataSrc = some s) (hne : s ≠ [])
    (hlazy : lazyEnabled card.dataLazy opts.lazyLoad = true) :
    initOne env opts card =
      { created := true, origChildren := card.children,
        title := jsOrStr card.dataTitle (jsOrStr card.innerTitle []),
        desc := jsOrStr card.dataDesc (jsOrStr card.innerDesc []),
        poster := jsOrStr card.dataPoster [], src := s,
        startLevel := parsedLevel card, lazyOn := true, cdn := opts.hlsCdn,
        video := ⟨none, [], ("none".toList)⟩, overlayPresent := true,
        injected := true, trace := [Ev.evWrapperBuilt, Ev.evDomInjected],
        pending := none } := by
  simp only [initOne, hsrc]
  rw [if_neg hne]
  simp [hlazy]

/-- Attachment count and final overlay state for the lazy one-click
scenario, in every environment. -/
theorem fullRun_lazy_cases (env : Env) (opts : Opts) (card : Card) (s : Str)
    (hsrc : card.dataSrc = some s) (hne : s ≠ [])
    (hlazy : lazyEnabled card.dataLazy opts.lazyLoad = true) :
    attachCalls (fullRun env opts card).trace =
      (if isHlsSource s && !env.hlsDefined && !env.scriptLoadOk then 0 else 1) ∧
    (fullRun env opts card).overlayPresent = false := by
  have h0 := initOne_lazy_state env opts card s hsrc hne hlazy
  by_cases hd : isHlsSource s
  · by_cases hh : env.hlsDefined
    · simp [fullRun, h0, runPending, clickOverlay, hd, hh, isAttachCallEv]
    · by_cases hok : env.scriptLoadOk
      · simp [fullRun, h0, runPending, clickOverlay, hd, hh, hok, isAttachCallEv]
      · by_cases hcp : (env.canPlayTypePresent && env.canPlayNativeHls) = true <;>
          simp [fullRun, h0, runPending, clickOverlay, hd, hh, hok, hcp,
            isAttachCallEv]
  · simp [fullRun, h0, runPending, clickOverlay, hd, isAttachCallEv]

/-- Attachment count for an eager placeholder without poster, in every
environment. -/
theorem fullRun_eager_noposter_cases (env : Env) (opts : Opts) (card : Card) (s : Str)
    (hsrc : card.dataSrc = some s) (hne : s ≠ [])
    (hlazy : lazyEnabled card.dataLazy opts.lazyLoad = false)
    (hp : jsOrStr card.dataPoster [] = []) :
    attachCalls (fullRun env opts card).trace =
      (if isHlsSource s && !env.hlsDefined && !env.scriptLoadOk then 0 else 1) := by
  simp only [fullRun, initOne, hsrc]
  rw [if_neg hne]
  by_cases hd : isHlsSource s
  · by_cases hh : env.hlsDefined
    · simp [runPending, clickOverlay, hd, hh, hlazy, hp, isAttachCallEv]
    · by_cases hok : env.scriptLoadOk
      · simp [runPending, clickOverlay, hd, hh, hok, hlazy, hp, isAttachCallEv]
      · by_cases hcp : (env.canPlayTypePresent && env.canPlayNativeHls) = true <;>
          simp [runPending, clickOverlay, hd, hh, hok, hcp, hlazy, hp, isAttachCallEv]
  · simp [runPending, clickOverlay, hd, hlazy, hp, isAttachCallEv]

/-! ## C2: lazy placeholders -/

/-- C2 (counterexample): a lazy adaptive-stream placeholder clicked once in
an environment where the decoder is absent and its CDN load fails ends with
the overlay removed but with zero source-attachment attempts, not exactly
one. -/
theorem lazy_click_no_attach_counterexample :
    lazyEnabled cardLazyHls.dataLazy optsT.lazyLoad = true ∧
    (fullRun envQuiet optsT cardLazyHls).overlayPresent = false ∧
    attachCalls (fullRun envQuiet optsT cardLazyHls).trace = 0 := by decide

/-- C2 (amended): a lazy placeholder is initialized without any source
(no `src` attribute, no `<source>` child, overlay present, no attempt); one
click removes the overlay and performs exactly one attachment attempt —
except that when the decoder script must be fetched and the fetch fails, no
attempt occurs. -/
theorem lazy_init_and_click (env : Env) (opts : Opts) (card : Card) (s : Str)
    (hsrc : card.dataSrc = some s) (hne : s ≠ [])
    (hlazy : lazyEnabled card.dataLazy opts.lazyLoad = true) :
    (initOne env opts card).video.srcAttr = none ∧
    (initOne env opts card).video.sources = [] ∧
    (initOne env opts card).overlayPresent = true ∧
    (initOne env opts card).injected = true ∧
    attachCalls (initOne env opts card).trace = 0 ∧
    (fullRun env opts card).overlayPresent = false ∧
    (isHlsSource s = false → attachCalls (fullRun env opts card).trace = 1) ∧
    (isHlsSource s = true → env.hlsDefined = true →
       attachCalls (fullRun env opts card).trace = 1) ∧
    (isHlsSource s = true → env.hlsDefined = false → env.scriptLoadOk = true →
       attachCalls (fullRun env opts card).trace = 1) ∧
    (isHlsSource s = true → env.hlsDefined = false → env.scriptLoadOk = false →
       attachCalls (fullRun env opts card).trace = 0) := by
  have h0 := initOne_lazy_state env opts card s hsrc hne hlazy
  have h1 := fullRun_lazy_cases env opts card s hsrc hne hlazy
  refine ⟨by rw [h0], by rw [h0], by rw [h0], by rw [h0],
    by rw [h0]; simp [isAttachCallEv],
    h1.2, ?_, ?_, ?_, ?_⟩
  · intro hd; rw [h1.1]; simp [hd]
  · intro hd hh; rw [h1.1]; simp [hd, hh]
  · intro hd hh hok; rw [h1.1]; simp [hd, hh, hok]
  · intro hd hh hok; rw [h1.1]; simp [hd, hh, hok]

/-- Witness for C2 (amended): lazy adaptive-stream card, decoder loads
successfully, one click, one attempt. -/
theorem lazy_init_and_click_witness :
    attachCalls (fullRun envAsyncOk optsT cardLazyHls).trace = 1 ∧
    (fullRun envAsyncOk optsT cardLazyHls).overlayPresent = false :=
  ⟨(lazy_init_and_click envAsyncOk optsT cardLazyHls ("a.m3u8".toList) rfl (by decide)
      (by decide)).2.2.2.2.2.2.2.2.1 (by decide) rfl rfl,
   (lazy_init_and_click envAsyncOk optsT cardLazyHls ("a.m3u8".toList) rfl (by decide)
      (by decide)).2.2.2.2.2.1⟩

/-! ## C6: single-attachment invariant -/

/-- C6 (counterexample): an eager direct-file placeholder with a poster
attaches at initialization, keeps its overlay, and a click attaches a second
time: two attachment attempts on the same video element. -/
theorem eager_poster_double_attach_counterexample :
    lazyEnabled cardDirectPoster.dataLazy optsT.lazyLoad = false ∧
    attachCalls (fullRun envQuiet optsT cardDirectPoster).trace = 2 := by decide

/-- C6 (amended): at most one attachment attempt ever occurs for a
placeholder that is lazy or has no poster; only an eager placeholder whose
poster keeps the overlay alive can be re-attached by a click. -/
theorem attach_at_most_once_when_lazy_or_no_poster (env : Env) (opts : Opts)
    (card : Card) (s : Str)
    (hsrc : card.dataSrc = some s) (hne : s ≠ [])
    (h : lazyEnabled card.dataLazy opts.lazyLoad = true ∨
         jsOrStr card.dataPoster [] = []) :
    attachCalls (fullRun env opts card).trace ≤ 1 := by
  rcases h with h | h
  · rw [(fullRun_lazy_cases env opts card s hsrc hne h).1]
    split <;> simp
  · by_cases hlz : lazyEnabled card.dataLazy opts.lazyLoad = true
    · rw [(fullRun_lazy_cases env opts card s hsrc hne hlz).1]
      split <;> simp
    · have hlz2 : lazyEnabled card.dataLazy opts.lazyLoad = false := by
        simpa using hlz
      rw [fullRun_eager_noposter_cases env opts card s hsrc hne hlz2 h]
      split <;> simp

/-- Witness for C6 (amended) at a lazy placeholder. -/
theorem attach_at_most_once_witness :
    attachCalls (fullRun envQuiet optsT cardLazyHls).trace ≤ 1 :=
  attach_at_most_once_when_lazy_or_no_poster envQuiet optsT cardLazyHls
    ("a.m3u8".toList) rfl (by decide) (Or.inl (by decide))


theorem aux_append_clean (a : List Ev) (ha : ∀ e ∈ a, isRemoveEv e = false)
    (b : List Ev) :
    noAttachAfterRemoveAux false (a ++ b) = noAttachAfterRemoveAux false b := by
  induction a with
  | nil => rfl
  | cons e t ih =>
    have he := ha e (List.mem_cons_self e t)
    simp only [List.cons_append, noAttachAfterRemoveAux, he, Bool.false_and,
      Bool.false_eq_true, if_false, Bool.false_or]
    exact ih fun x hx => ha x (List.mem_cons_of_mem e hx)

theorem isRemoveEv_eq_false_of_ne (e : Ev) (h : e ≠ Ev.evOverlayRemove) :
    isRemoveEv e = false := by
  cases e <;> simp_all [isRemoveEv]

/-- Function `attachHls` contributes no overlay removal, so the scan passes over its
events unchanged. -/
@[simp] theorem aux_attachHls_skip (env : Env) (v : VideoEl) (src : Str)
    (lvl : Option JSNum) (b : List Ev) :
    noAttachAfterRemoveAux false ((attachHls env v src lvl).2 ++ b) =
      noAttachAfterRemoveAux false b :=
  aux_append_clean _
    (fun e he => isRemoveEv_eq_false_of_ne e
      (fun h2 => overlayRemove_notin_attachHls env v src lvl (h2 ▸ he))) b

/-- C9 (counterexample): for an eager adaptive-stream placeholder with no
poster, in an environment where the decoder script is fetched asynchronously
and loads successfully, the overlay is removed during initialization and the
attachment attempt happens only afterwards, in the load callback. -/
theorem eager_async_remove_before_attach_counterexample :
    noAttachAfterRemove (fullRun envAsyncOk optsT cardEagerHls).trace = false ∧
    attachCalls (fullRun envAsyncOk optsT cardEagerHls).trace = 1 := by decide

/-- C9 (amended): the wrapper is always built before anything else; and no
attachment attempt follows an overlay removal — except in the eager
asynchronous-decoder-load path without poster, excluded by the hypothesis. -/
theorem construction_and_attachment_ordering (env : Env) (opts : Opts)
    (card : Card) (s : Str)
    (hsrc : card.dataSrc = some s) (hne : s ≠ [])
    (h : lazyEnabled card.dataLazy opts.lazyLoad = true ∨
         jsOrStr card.dataPoster [] ≠ [] ∨ isHlsSource s = false ∨
         env.hlsDefined = true ∨ env.scriptLoadOk = false) :
    (fullRun env opts card).trace.head? = some Ev.evWrapperBuilt ∧
    noAttachAfterRemove (fullRun env opts card).trace = true := by
  by_cases hlz : lazyEnabled card.dataLazy opts.lazyLoad = true
  · have h0 := initOne_lazy_state env opts card s hsrc hne hlz
    by_cases hd : isHlsSource s
    · by_cases hh : env.hlsDefined
      · simp [fullRun, h0, runPending, clickOverlay, hd, hh, noAttachAfterRemove,
          noAttachAfterRemoveAux, isAttachCallEv, isRemoveEv]
      · by_cases hok : env.scriptLoadOk
        · simp [fullRun, h0, runPending, clickOverlay, hd, hh, hok,
            noAttachAfterRemove, noAttachAfterRemoveAux, isAttachCallEv, isRemoveEv]
        · by_cases hcp : (env.canPlayTypePresent && env.canPlayNativeHls) = true <;>
            simp [fullRun, h0, runPending, clickOverlay, hd, hh, hok, hcp,
              noAttachAfterRemove, noAttachAfterRemoveAux, isAttachCallEv, isRemoveEv]
    · simp [fullRun, h0, runPending, clickOverlay, hd, noAttachAfterRemove,
        noAttachAfterRemoveAux, isAttachCallEv, isRemoveEv]
  · have hlz2 : lazyEnabled card.dataLazy opts.lazyLoad = false := by simpa using hlz
    simp only [fullRun, initOne, hsrc]
    rw [if_neg hne]
    by_cases hd : isHlsSource s
    · by_cases hh : env.hlsDefined
      · by_cases hp : jsOrStr card.dataPoster [] = [] <;>
          simp [runPending, clickOverlay, hd, hh, hp, hlz2, noAttachAfterRemove,
            noAttachAfterRemoveAux, isAttachCallEv, isRemoveEv]
      · by_cases hok : env.scriptLoadOk
        · by_cases hp : jsOrStr card.dataPoster [] = []
          · exfalso
            rcases h with h | h | h | h | h <;> simp_all
          · simp [runPending, clickOverlay, hd, hh, hok, hp, hlz2,
              noAttachAfterRemove, noAttachAfterRemoveAux, isAttachCallEv, isRemoveEv]
        · by_cases hp : jsOrStr card.dataPoster [] = [] <;>
            by_cases hcp : (env.canPlayTypePresent && env.canPlayNativeHls) = true <;>
              simp [runPending, clickOverlay, hd, hh, hok, hcp, hp, hlz2,
                noAttachAfterRemove, noAttachAfterRemoveAux, isAttachCallEv, isRemoveEv]
    · by_cases hp : jsOrStr card.dataPoster [] = [] <;>
        simp [runPending, clickOverlay, hd, hp, hlz2, noAttachAfterRemove,
          noAttachAfterRemoveAux, isAttachCallEv, isRemoveEv]

/-- Witness for C9 (amended) at a lazy adaptive-stream placeholder with a
successful decoder load. -/
theorem construction_and_attachment_ordering_witness :
    (fullRun envAsyncOk optsT cardLazyHls).trace.head? = some Ev.evWrapperBuilt ∧
    noAttachAfterRemove (fullRun envAsyncOk optsT cardLazyHls).trace = true :=
  construction_and_attachment_ordering envAsyncOk optsT cardLazyHls
    ("a.m3u8".toList) rfl (by decide) (Or.inl (by decide))


end VdCard
